/-
Verification of the posting-queue core of the arrested-bot repository
(src/bot.ts): queue store load/save, selector, publisher and run
coordinator, shallowly embedded in Lean 4.

Modelling conventions:
* Timestamps (`new Date().toISOString()`) are modelled as natural numbers
  drawn from an ambient clock `clock : Nat → Nat`; `clock 0` is the reading
  at the start of the run, `clock 1` the reading taken when the post is
  composed, `clock 2` the reading taken by `markAsPosted`.  Monotonicity of
  the real clock is an explicit hypothesis where a claim needs it.
* The persisted database file is modelled at two levels.  For run-level
  claims the disk holds `Option Database` (absent file, or a parsed
  well-formed document); for load/save-level claims the disk holds a
  `DiskJ`, which records the three possible outcomes of `JSON.parse`:
  absent file, syntactically invalid content, or a parsed JSON value.
* JavaScript objects produced by `JSON.parse` carry every field of the
  document, not only the ones named in the TypeScript `Clip` interface
  (the `as Database` cast performs no runtime check and drops nothing).
  The struct therefore carries an `extra` bag of unknown fields, which the
  code never touches.
* Network and filesystem effects are recorded in an event trace; the
  remote collaborator's responses are an oracle (`Remote`).
-/
import Mathlib

namespace ArrestedBot

/-- A JSON value, used for the unvalidated-load model and for unknown
fields carried through a load/save cycle.  Numbers are abstracted to
integers (the repository's database uses only strings and booleans). -/
inductive Json where
  | null
  | bool (b : Bool)
  | num (n : Int)
  | str (s : String)
  | arr (elems : List Json)
  | obj (fields : List (String × Json))
deriving Repr

/-- One queue entry, mirroring the `Clip` interface of src/bot.ts plus the
unknown extra fields a parsed JSON object carries at runtime.
`post_date` is the optional posting timestamp (a string in the source,
abstracted to `Nat`). -/
structure Clip where
  id : String
  filename : String
  quote : String
  character : String
  description : Option String
  posted : Bool
  post_date : Option Nat
  extra : List (String × Json)
deriving Repr

/-- The parsed database document, mirroring the `Database` interface plus
unknown extra fields at the document root. -/
structure Database where
  clips : List Clip
  extra : List (String × Json)
deriving Repr

/-- `const CLIPS_FOLDER = "./clips"` of src/bot.ts. -/
def CLIPS_FOLDER : String := "./clips"

/-- Queue-store failures: absent record (`process.exit(1)` in
`loadDatabase`) or unparseable content (`JSON.parse` throwing). -/
inductive LoadErr where
  | notFound
  | corrupt
deriving Repr, DecidableEq

/-- Publisher failures, one per step of `postClip`. -/
inductive PubErr where
  | authError
  | mediaNotFound
  | uploadError
  | submitError
deriving Repr, DecidableEq

/-- How a run can fail (`process.exit(1)` paths of `main`). -/
inductive RunErr where
  | envMissing
  | loadFailed (e : LoadErr)
  | publishFailed (e : PubErr)
deriving Repr, DecidableEq

/-- Outcome of `JSON.parse` on the database file: file absent, content not
valid JSON, or a parsed JSON value.  The parse itself is a platform
primitive; the model records its result. -/
inductive DiskJ where
  | absent
  | invalid
  | valid (doc : Json)
deriving Repr

/-- `loadDatabase` of src/bot.ts at the JSON level: exits when the file is
absent, propagates the `JSON.parse` failure, and otherwise returns the
parsed document unexamined — the `as Database` cast performs no runtime
validation, so no shape check and no duplicate-identifier check happens. -/
def loadDatabaseJ : DiskJ → Except LoadErr Json
  | .absent => .error .notFound
  | .invalid => .error .corrupt
  | .valid j => .ok j

/-- External effects of one run, in order of occurrence. -/
inductive Event where
  | login (identifier : String)
  | upload (filename : String) (mime : String)
  | post (text : String) (alt : String) (createdAt : Nat)
  | save
deriving Repr, DecidableEq

/-- Responses of the remote collaborator for the three network calls of
`postClip` (login, uploadBlob, post). -/
structure Remote where
  loginOk : Bool
  uploadOk : Bool
  postOk : Bool
deriving Repr, DecidableEq

/-- Result of one `postClip` call: the returned value (or thrown error)
and the trace of external calls it made. -/
structure PubResult where
  res : Except PubErr Unit
  trace : List Event
deriving Repr

/-- Result of one `main` invocation: its exit status, the final database
file, and the trace of external calls. -/
structure RunResult where
  outcome : Except RunErr Unit
  disk : Option Database
  trace : List Event
deriving Repr

/-- JavaScript truthiness of `process.env.X` in
`!process.env.BLUESKY_USERNAME`: an unset variable and the empty string
are both falsy. -/
def envPresent : Option String → Bool
  | none => false
  | some s => !(s == "")

/-- `loadDatabase` of src/bot.ts at the run level (the disk holds a parsed
well-formed document or nothing). -/
def loadDatabase : Option Database → Except LoadErr Database
  | none => .error .notFound
  | some db => .ok db

/-- `saveDatabase` of src/bot.ts: `writeFileSync` of the serialised full
document, replacing the previous file content. -/
def saveDatabase (db : Database) : Option Database :=
  some db

/-- `getNextClip` of src/bot.ts:
`db.clips.find((clip) => !clip.posted) ?? null`. -/
def getNextClip (db : Database) : Option Clip :=
  db.clips.find? (fun clip => !clip.posted)

/-- The in-place mutation performed by `markAsPosted`:
`db.clips.find((c) => c.id === clipId)` returns the first clip whose id
matches, and only that object's `posted` and `post_date` are assigned. -/
def updateFirstMatch (clipId : String) (now : Nat) : List Clip → List Clip
  | [] => []
  | c :: rest =>
    if c.id = clipId then
      { c with posted := true, post_date := some now } :: rest
    else
      c :: updateFirstMatch clipId now rest

/-- `markAsPosted` of src/bot.ts: if some clip has the given id, set the
first such clip's `posted` to true and `post_date` to the current time;
otherwise do nothing (the `if (clip)` guard makes a missing id a no-op). -/
def markAsPosted (db : Database) (clipId : String) (now : Nat) : Database :=
  { db with clips := updateFirstMatch clipId now db.clips }

/-- `postClip` of src/bot.ts.  Steps in source order: `agent.login`
(fails with the thrown login error, modelled `authError`), `existsSync`
on `CLIPS_FOLDER/filename` (throws `Video file not found`, modelled
`mediaNotFound`), `agent.uploadBlob(videoData, { encoding: "video/mp4" })`
(modelled `uploadError` on failure), then `agent.post` with
`text = "\x22${quote}\x22\n\n— ${character}"` and
`alt = clip.description || ""` (modelled `submitError` on failure).
`creds` are `(BLUESKY_USERNAME, BLUESKY_APP_PASSWORD)`, `tPost` the clock
reading used for `createdAt`, `fs` the set of existing file paths. -/
def postClip (creds : String × String) (remote : Remote) (fs : List String)
    (clip : Clip) (tPost : Nat) : PubResult :=
  let loginTrace := [Event.login creds.1]
  if !remote.loginOk then
    ⟨.error .authError, loginTrace⟩
  else if !(fs.contains (CLIPS_FOLDER ++ "/" ++ clip.filename)) then
    ⟨.error .mediaNotFound, loginTrace⟩
  else
    let uploadTrace := loginTrace ++ [Event.upload clip.filename "video/mp4"]
    if !remote.uploadOk then
      ⟨.error .uploadError, uploadTrace⟩
    else
      let caption := "\x22" ++ clip.quote ++ "\x22\n\n— " ++ clip.character
      let postTrace :=
        uploadTrace ++ [Event.post caption (clip.description.getD "") tPost]
      if !remote.postOk then
        ⟨.error .submitError, postTrace⟩
      else
        ⟨.ok (), postTrace⟩

/-- `main` of src/bot.ts: check the environment variables, load the
database, select the next clip (success with no effects when all are
posted), publish it, and only then mark it posted and save.  Any thrown
error is caught and turned into `process.exit(1)` with the database file
untouched. -/
def runOnce (env : Option String × Option String) (disk : Option Database)
    (fs : List String) (remote : Remote) (clock : Nat → Nat) : RunResult :=
  if !(envPresent env.1 && envPresent env.2) then
    ⟨.error .envMissing, disk, []⟩
  else
    match loadDatabase disk with
    | .error e => ⟨.error (.loadFailed e), disk, []⟩
    | .ok db =>
      match getNextClip db with
      | none => ⟨.ok (), disk, []⟩
      | some clip =>
        let pr := postClip (env.1.getD "", env.2.getD "") remote fs clip (clock 1)
        match pr.res with
        | .error e => ⟨.error (.publishFailed e), disk, pr.trace⟩
        | .ok _ =>
          ⟨.ok (), saveDatabase (markAsPosted db clip.id (clock 2)),
            pr.trace ++ [Event.save]⟩

/-- Modelled from the spec, §4.2: "Returns the first Item (in queue
order) whose `posted` is false", `None` when every Item is posted.  Used
only to compare the source's `getNextClip` against the spec's words. -/
def selectNextSpec : List Clip → Option Clip
  | [] => none
  | c :: rest => if c.posted then selectNextSpec rest else some c

/-- The publish attempt of a run fully succeeded: the environment was
present, a database was loaded, a clip was selected, and `postClip`
returned without error. -/
def publishSucceeded (env : Option String × Option String)
    (disk : Option Database) (fs : List String) (remote : Remote)
    (clock : Nat → Nat) : Prop :=
  (envPresent env.1 && envPresent env.2) = true ∧
  ∃ db clip, disk = some db ∧ getNextClip db = some clip ∧
    (postClip (env.1.getD "", env.2.getD "") remote fs clip (clock 1)).res = .ok ()

/-! ### Helper lemmas -/

theorem find_unposted_spec (l : List Clip) (c : Clip)
    (h : l.find? (fun x => !x.posted) = some c) :
    ∃ i, l[i]? = some c ∧ c.posted = false ∧
      ∀ (j : Nat) (d : Clip), j < i → l[j]? = some d → d.posted = true := by
  induction l with
  | nil => simp at h
  | cons x rest ih =>
    by_cases hx : x.posted
    · have h' : rest.find? (fun x => !x.posted) = some c := by
        rw [List.find?] at h; simpa [hx] using h
      obtain ⟨i, hget, hpost, hbefore⟩ := ih h'
      refine ⟨i + 1, by simpa using hget, hpost, ?_⟩
      intro j d hj hjd
      cases j with
      | zero =>
        have hxd : x = d := by simpa using hjd
        exact hxd ▸ hx
      | succ j => exact hbefore j d (Nat.lt_of_succ_lt_succ hj) (by simpa using hjd)
    · have hxc : x = c := by
        rw [List.find?] at h
        simpa [eq_false_of_ne_true hx] using h
      have hxp : x.posted = false := eq_false_of_ne_true hx
      exact ⟨0, by simp [hxc], hxc ▸ hxp,
        fun j d hj _ => absurd hj (Nat.not_lt_zero j)⟩

theorem nodup_ids_ne (l : List Clip) (hnd : (l.map Clip.id).Nodup) :
    ∀ (i j : Nat) (c d : Clip), i ≠ j → l[i]? = some c → l[j]? = some d →
      c.id ≠ d.id := by
  induction l with
  | nil => intro i j c d _ hc; simp at hc
  | cons x rest ih =>
    simp only [List.map_cons, List.nodup_cons] at hnd
    obtain ⟨hx, hrest⟩ := hnd
    intro i j c d hij hc hd
    cases i with
    | zero =>
      cases j with
      | zero => exact absurd rfl hij
      | succ j =>
        have hxc : x = c := by simpa using hc
        have hdmem : d ∈ rest := List.getElem?_mem (by simpa using hd)
        intro heq
        exact hx (hxc ▸ heq ▸ List.mem_map_of_mem Clip.id hdmem)
    | succ i =>
      cases j with
      | zero =>
        have hxd : x = d := by simpa using hd
        have hcmem : c ∈ rest := List.getElem?_mem (by simpa using hc)
        intro heq
        exact hx (hxd ▸ heq ▸ List.mem_map_of_mem Clip.id hcmem)
      | succ j =>
        exact ih hrest i j c d (fun h => hij (by rw [h]))
          (by simpa using hc) (by simpa using hd)

theorem updateFirstMatch_no_match (clipId : String) (now : Nat)
    (l : List Clip) (h : ∀ c ∈ l, c.id ≠ clipId) :
    updateFirstMatch clipId now l = l := by
  induction l with
  | nil => rfl
  | cons x rest ih =>
    rw [updateFirstMatch]
    rw [if_neg (h x (List.mem_cons_self x rest))]
    rw [ih (fun c hc => h c (List.mem_cons_of_mem x hc))]

theorem updateFirstMatch_eq_set (clipId : String) (now : Nat) :
    ∀ (l : List Clip) (i : Nat) (c : Clip), l[i]? = some c → c.id = clipId →
    (∀ (j : Nat) (d : Clip), j < i → l[j]? = some d → d.id ≠ clipId) →
    updateFirstMatch clipId now l =
      l.set i { c with posted := true, post_date := some now } := by
  intro l
  induction l with
  | nil => intro i c hc; simp at hc
  | cons x rest ih =>
    intro i c hc hcid hbefore
    cases i with
    | zero =>
      simp at hc
      rw [updateFirstMatch, if_pos (hc ▸ hcid), hc]
      rfl
    | succ i =>
      have hxne : x.id ≠ clipId :=
        hbefore 0 x (Nat.succ_pos i) (by simp)
      rw [updateFirstMatch, if_neg hxne]
      rw [ih i c (by simpa using hc) hcid
        (fun j d hj hjd => hbefore (j + 1) d (Nat.succ_lt_succ hj) (by simpa using hjd))]
      rfl

theorem updateFirstMatch_length (clipId : String) (now : Nat) (l : List Clip) :
    (updateFirstMatch clipId now l).length = l.length := by
  induction l with
  | nil => rfl
  | cons x rest ih =>
    rw [updateFirstMatch]
    by_cases hx : x.id = clipId
    · rw [if_pos hx]; rfl
    · rw [if_neg hx]; simpa using ih

theorem updateFirstMatch_pointwise (clipId : String) (now : Nat) :
    ∀ (l : List Clip) (i : Nat) (c : Clip), l[i]? = some c →
    ∃ c', (updateFirstMatch clipId now l)[i]? = some c' ∧
      c'.id = c.id ∧ c'.filename = c.filename ∧ c'.quote = c.quote ∧
      c'.character = c.character ∧ c'.description = c.description ∧
      c'.extra = c.extra := by
  intro l
  induction l with
  | nil => intro i c hc; simp at hc
  | cons x rest ih =>
    intro i c hc
    by_cases hx : x.id = clipId
    · rw [updateFirstMatch, if_pos hx]
      cases i with
      | zero =>
        simp at hc
        exact ⟨{ x with posted := true, post_date := some now },
          by simp, by simp [hc], by simp [hc], by simp [hc], by simp [hc],
          by simp [hc], by simp [hc]⟩
      | succ i => exact ⟨c, by simpa using hc, rfl, rfl, rfl, rfl, rfl, rfl⟩
    · rw [updateFirstMatch, if_neg hx]
      cases i with
      | zero => simp at hc; exact ⟨c, by simp [hc], rfl, rfl, rfl, rfl, rfl, rfl⟩
      | succ i =>
        obtain ⟨c', hg, hrest⟩ := ih i c (by simpa using hc)
        exact ⟨c', by simpa using hg, hrest⟩

theorem postClip_no_save (creds : String × String) (remote : Remote)
    (fs : List String) (clip : Clip) (tPost : Nat) :
    Event.save ∉ (postClip creds remote fs clip tPost).trace := by
  unfold postClip
  by_cases h1 : remote.loginOk <;>
    by_cases h2 : (CLIPS_FOLDER ++ "/" ++ clip.filename) ∈ fs <;>
      by_cases h3 : remote.uploadOk <;>
        by_cases h4 : remote.postOk <;>
          simp [h1, h2, h3, h4]

theorem postClip_upload_mime (creds : String × String) (remote : Remote)
    (fs : List String) (clip : Clip) (tPost : Nat) (f m : String)
    (h : Event.upload f m ∈ (postClip creds remote fs clip tPost).trace) :
    m = "video/mp4" := by
  unfold postClip at h
  by_cases h1 : remote.loginOk <;>
    by_cases h2 : (CLIPS_FOLDER ++ "/" ++ clip.filename) ∈ fs <;>
      by_cases h3 : remote.uploadOk <;>
        by_cases h4 : remote.postOk <;>
          simp [h1, h2, h3, h4] at h <;>
            simp [h]

theorem postClip_post_format (creds : String × String) (remote : Remote)
    (fs : List String) (clip : Clip) (tPost : Nat) (s a : String) (ts : Nat)
    (h : Event.post s a ts ∈ (postClip creds remote fs clip tPost).trace) :
    s = "\x22" ++ clip.quote ++ "\x22\n\n— " ++ clip.character ∧
      a = clip.description.getD "" := by
  unfold postClip at h
  by_cases h1 : remote.loginOk <;>
    by_cases h2 : (CLIPS_FOLDER ++ "/" ++ clip.filename) ∈ fs <;>
      by_cases h3 : remote.uploadOk <;>
        by_cases h4 : remote.postOk <;>
          simp [h1, h2, h3, h4] at h <;>
            simp [h.1.symm, h.2.1.symm]

theorem runOnce_cases (env : Option String × Option String)
    (disk : Option Database) (fs : List String) (remote : Remote)
    (clock : Nat → Nat) :
    ((envPresent env.1 && envPresent env.2) = false ∧
      runOnce env disk fs remote clock = ⟨.error .envMissing, disk, []⟩) ∨
    ((envPresent env.1 && envPresent env.2) = true ∧ disk = none ∧
      runOnce env disk fs remote clock =
        ⟨.error (.loadFailed .notFound), disk, []⟩) ∨
    (∃ db, (envPresent env.1 && envPresent env.2) = true ∧ disk = some db ∧
      getNextClip db = none ∧
      runOnce env disk fs remote clock = ⟨.ok (), disk, []⟩) ∨
    (∃ db clip e,
      (envPresent env.1 && envPresent env.2) = true ∧ disk = some db ∧
      getNextClip db = some clip ∧
      (postClip (env.1.getD "", env.2.getD "") remote fs clip (clock 1)).res =
        .error e ∧
      runOnce env disk fs remote clock =
        ⟨.error (.publishFailed e), disk,
          (postClip (env.1.getD "", env.2.getD "") remote fs clip (clock 1)).trace⟩) ∨
    (∃ db clip,
      (envPresent env.1 && envPresent env.2) = true ∧ disk = some db ∧
      getNextClip db = some clip ∧
      (postClip (env.1.getD "", env.2.getD "") remote fs clip (clock 1)).res =
        .ok () ∧
      runOnce env disk fs remote clock =
        ⟨.ok (), some (markAsPosted db clip.id (clock 2)),
          (postClip (env.1.getD "", env.2.getD "") remote fs clip (clock 1)).trace
            ++ [Event.save]⟩) := by
  by_cases he : (envPresent env.1 && envPresent env.2) = true
  · cases disk with
    | none =>
      right; left
      exact ⟨he, rfl, by simp [runOnce, he, loadDatabase]⟩
    | some db =>
      cases hsel : getNextClip db with
      | none =>
        right; right; left
        exact ⟨db, he, rfl, hsel, by simp [runOnce, he, loadDatabase, hsel]⟩
      | some clip =>
        cases hres :
            (postClip (env.1.getD "", env.2.getD "") remote fs clip (clock 1)).res with
        | error e =>
          right; right; right; left
          exact ⟨db, clip, e, he, rfl, hsel, hres,
            by simp [runOnce, he, loadDatabase, hsel, hres]⟩
        | ok u =>
          right; right; right; right
          refine ⟨db, clip, he, rfl, hsel, ?_, ?_⟩
          · cases u; exact hres
          · simp [runOnce, he, loadDatabase, saveDatabase, hsel, hres]
  · left
    have he' : (envPresent env.1 && envPresent env.2) = false := by
      simpa using he
    exact ⟨he', by simp [runOnce, he']⟩

/-! ### Concrete fixtures (the spec's example scenario, §8) -/

/-- The example Item of spec §8: quote "There's always money in the banana
stand", character "George Sr.", unposted. -/
def georgeClip : Clip :=
  { id := "banana_stand_money"
    filename := "banana_stand_money.mp4"
    quote := "There\x27s always money in the banana stand"
    character := "George Sr."
    description := some "George Sr. in the banana stand"
    posted := false
    post_date := none
    extra := [("season", Json.num 1)] }

/-- An already-posted Item preceding the example one. -/
def gobClip : Clip :=
  { id := "chicken_dance"
    filename := "chicken_dance.mp4"
    quote := "Coo coo ca cha"
    character := "Gob"
    description := none
    posted := true
    post_date := some 0
    extra := [] }

/-- A small queue: one posted clip followed by the example unposted one,
with an unknown field at the document root. -/
def exampleDb : Database :=
  { clips := [gobClip, georgeClip]
    extra := [("version", Json.str "1")] }

/-- Filesystem containing exactly the example clip's video file. -/
def exampleFs : List String := ["./clips/banana_stand_money.mp4"]

/-- A remote collaborator that accepts every call. -/
def allOk : Remote := ⟨true, true, true⟩

/-- Credentials present in the environment. -/
def exampleEnv : Option String × Option String :=
  (some "bot.bsky.social", some "app-password")

/-- A record (as parsed JSON) whose two items share the identifier "a". -/
def dupDoc : Json :=
  Json.obj [("clips", Json.arr
    [Json.obj [("id", Json.str "a"), ("filename", Json.str "a.mp4"),
       ("quote", Json.str "q"), ("character", Json.str "ch"),
       ("posted", Json.bool true)],
     Json.obj [("id", Json.str "a"), ("filename", Json.str "b.mp4"),
       ("quote", Json.str "r"), ("character", Json.str "ch"),
       ("posted", Json.bool false)]])]

/-! ### Claims -/

/-- C2: `getNextClip` returns the first Item in queue order whose `posted`
flag is false (coinciding with the spec's selector on every queue), and
returns none exactly when every Item is posted.  It is a pure function of
the queue, so determinism is inherent in the model. -/
theorem selectNext_first_unposted (db : Database) :
    getNextClip db = selectNextSpec db.clips ∧
    (getNextClip db = none ↔ ∀ c ∈ db.clips, c.posted = true) := by
  constructor
  · show db.clips.find? (fun clip => !clip.posted) = selectNextSpec db.clips
    induction db.clips with
    | nil => rfl
    | cons x rest ih =>
      rw [List.find?, selectNextSpec]
      by_cases hx : x.posted
      · simp [hx, ih]
      · simp [eq_false_of_ne_true hx]
  · rw [getNextClip, List.find?_eq_none]
    simp

/-- C5 counterexample: a syntactically valid record whose two items share
an identifier loads successfully, and so does the record `\x7b\x7d` that
is missing every required field — neither fails with `Corrupt`. -/
theorem load_accepts_duplicate_ids :
    loadDatabaseJ (DiskJ.valid dupDoc) = Except.ok dupDoc ∧
    loadDatabaseJ (DiskJ.valid dupDoc) ≠ Except.error LoadErr.corrupt ∧
    loadDatabaseJ (DiskJ.valid (Json.obj [])) = Except.ok (Json.obj []) :=
  ⟨rfl, fun h => Except.noConfusion h, rfl⟩

/-- C5 amended: `loadDatabase` fails with `NotFound` exactly when the
record is absent and with `Corrupt` exactly when the content is not
syntactically valid JSON; every syntactically valid JSON document is
returned as-is, with no shape validation and no duplicate-identifier
check. -/
theorem load_failure_modes (d : DiskJ) :
    (loadDatabaseJ d = Except.error LoadErr.notFound ↔ d = DiskJ.absent) ∧
    (loadDatabaseJ d = Except.error LoadErr.corrupt ↔ d = DiskJ.invalid) ∧
    (∀ j, loadDatabaseJ d = Except.ok j ↔ d = DiskJ.valid j) := by
  cases d <;> simp [loadDatabaseJ]

/-- C9: `markAsPosted` with an identifier matching no Item is a silent
no-op (it is a total function and returns the queue unchanged); with a
matching identifier, the list becomes `set i` of the first matching
index, i.e. only that Item's `posted` and `post_date` change and the rest
of the document, root fields included, is untouched. -/
theorem markAsPosted_frame (db : Database) (clipId : String) (t : Nat) :
    ((∀ c ∈ db.clips, c.id ≠ clipId) → markAsPosted db clipId t = db) ∧
    (∀ (i : Nat) (c : Clip), db.clips[i]? = some c → c.id = clipId →
      (∀ (j : Nat) (d : Clip), j < i → db.clips[j]? = some d → d.id ≠ clipId) →
      (markAsPosted db clipId t).clips =
        db.clips.set i { c with posted := true, post_date := some t } ∧
      (markAsPosted db clipId t).extra = db.extra) := by
  constructor
  · intro h
    rw [markAsPosted, updateFirstMatch_no_match clipId t db.clips h]
  · intro i c hc hcid hbefore
    exact ⟨by rw [markAsPosted]; exact updateFirstMatch_eq_set clipId t db.clips i c hc hcid hbefore, rfl⟩

/-- Witness for C9 at the example queue: the id "murder_boards" matches no
clip, so the database is returned unchanged; the id of the example clip
matches at index 1 and yields exactly the `set`-update. -/
theorem markAsPosted_frame_witness :
    markAsPosted exampleDb "murder_boards" 7 = exampleDb ∧
    (markAsPosted exampleDb "banana_stand_money" 7).clips =
      exampleDb.clips.set 1
        { georgeClip with posted := true, post_date := some 7 } := by
  constructor
  · exact (markAsPosted_frame exampleDb "murder_boards" 7).1 (by decide)
  · refine ((markAsPosted_frame exampleDb "banana_stand_money" 7).2 1 georgeClip
      rfl rfl ?_).1
    intro j d hj hd
    have hj0 : j = 0 := Nat.lt_one_iff.mp hj
    subst hj0
    have h0 : exampleDb.clips[0]? = some gobClip := rfl
    rw [← Option.some.inj (h0.symm.trans hd)]
    decide

/-- C1: the database file is written (a save occurs) if and only if the
publish attempt of the run fully succeeded, and at most once per run; on
any Publisher failure — and on every other path that does not publish —
`saveDatabase` is never invoked and the persisted record is unchanged, so
no Item's `posted` flag flips. -/
theorem save_only_on_publish_success (env : Option String × Option String)
    (disk : Option Database) (fs : List String) (remote : Remote)
    (clock : Nat → Nat) :
    (runOnce env disk fs remote clock).trace.count Event.save ≤ 1 ∧
    (Event.save ∈ (runOnce env disk fs remote clock).trace ↔
      publishSucceeded env disk fs remote clock) ∧
    (¬ publishSucceeded env disk fs remote clock →
      (runOnce env disk fs remote clock).disk = disk) := by
  rcases runOnce_cases env disk fs remote clock with
    ⟨he, hr⟩ | ⟨he, hd, hr⟩ | ⟨db, he, hd, hsel, hr⟩ |
    ⟨db, clip, e, he, hd, hsel, hres, hr⟩ | ⟨db, clip, he, hd, hsel, hres, hr⟩
  · rw [hr]
    refine ⟨by simp, ?_, fun _ => rfl⟩
    simp only [List.not_mem_nil, false_iff]
    rintro ⟨henv, -⟩
    rw [he] at henv
    exact Bool.noConfusion henv
  · rw [hr]
    refine ⟨by simp, ?_, fun _ => rfl⟩
    simp only [List.not_mem_nil, false_iff]
    rintro ⟨-, db, c, hdb, -⟩
    rw [hd] at hdb
    exact Option.noConfusion hdb
  · rw [hr]
    refine ⟨by simp, ?_, fun _ => rfl⟩
    simp only [List.not_mem_nil, false_iff]
    rintro ⟨-, db', c, hdb, hsel', -⟩
    rw [hd] at hdb
    rw [Option.some.inj hdb] at hsel
    rw [hsel] at hsel'
    exact Option.noConfusion hsel'
  · rw [hr]
    have hns := postClip_no_save (env.1.getD "", env.2.getD "") remote fs clip (clock 1)
    refine ⟨Nat.le_of_eq (by simpa using List.count_eq_zero_of_not_mem hns) |>.trans
      (Nat.zero_le 1), ?_, fun _ => rfl⟩
    simp only [hns, false_iff]
    rintro ⟨-, db', c, hdb, hsel', hres'⟩
    rw [hd] at hdb
    rw [Option.some.inj hdb] at hsel
    rw [hsel] at hsel'
    rw [Option.some.inj hsel'] at hres
    rw [hres'] at hres
    exact Except.noConfusion hres
  · rw [hr]
    have hns := postClip_no_save (env.1.getD "", env.2.getD "") remote fs clip (clock 1)
    have hps : publishSucceeded env disk fs remote clock :=
      ⟨he, db, clip, hd, hsel, hres⟩
    refine ⟨?_, ?_, fun hnp => absurd hps hnp⟩
    · simp [List.count_append, List.count_eq_zero_of_not_mem hns]
    · simp only [List.mem_append, List.mem_singleton, or_true, true_iff]
      exact hps

/-- Witness for C1: with no credentials in the environment, no publish can
succeed and the database file is left untouched. -/
theorem save_only_on_publish_success_witness :
    ¬ publishSucceeded (none, none) (some exampleDb) exampleFs allOk (fun n => n) ∧
    (runOnce (none, none) (some exampleDb) exampleFs allOk (fun n => n)).disk =
      some exampleDb := by
  have hnp : ¬ publishSucceeded (none, none) (some exampleDb) exampleFs allOk
      (fun n => n) := by
    rintro ⟨henv, -⟩
    simp [envPresent] at henv
  exact ⟨hnp,
    (save_only_on_publish_success (none, none) (some exampleDb) exampleFs allOk
      (fun n => n)).2.2 hnp⟩

/-- C4: every post submitted by `postClip` carries the caption built as
the quote in quotation marks, the blank-line break, then an em-dash and
the speaker name, and its accessibility text is the Item's description or
the empty string when the description is absent. -/
theorem caption_and_alt_format (creds : String × String) (remote : Remote)
    (fs : List String) (clip : Clip) (tPost : Nat) (s a : String) (ts : Nat)
    (h : Event.post s a ts ∈ (postClip creds remote fs clip tPost).trace) :
    s = "\x22" ++ clip.quote ++ "\x22\n\n— " ++ clip.character ∧
    a = clip.description.getD "" :=
  postClip_post_format creds remote fs clip tPost s a ts h

/-- Witness for C4 at the spec's example Item: the caption sent to the
remote is exactly `"There's always money in the banana stand"` followed
by a blank line and `— George Sr.`. -/
theorem caption_and_alt_format_witness :
    Event.post "\x22There\x27s always money in the banana stand\x22\n\n— George Sr."
        "George Sr. in the banana stand" 1 ∈
      (postClip ("bot.bsky.social", "app-password") allOk exampleFs georgeClip 1).trace ∧
    ("\x22There\x27s always money in the banana stand\x22\n\n— George Sr." =
        "\x22" ++ georgeClip.quote ++ "\x22\n\n— " ++ georgeClip.character ∧
      "George Sr. in the banana stand" = georgeClip.description.getD "") :=
  ⟨by decide,
    caption_and_alt_format ("bot.bsky.social", "app-password") allOk exampleFs
      georgeClip 1 _ _ 1 (by decide)⟩

/-- C8: when the Item's local media file is absent, the publish fails —
with `MediaNotFound` whenever authentication succeeded — and no upload
and no post submission ever reaches the network: media resolution
strictly precedes upload, which strictly precedes submission. -/
theorem media_missing_fail_fast (creds : String × String) (remote : Remote)
    (fs : List String) (clip : Clip) (tPost : Nat)
    (hm : (CLIPS_FOLDER ++ "/" ++ clip.filename) ∉ fs) :
    (remote.loginOk = true →
      (postClip creds remote fs clip tPost).res = .error .mediaNotFound) ∧
    (∀ (f m : String),
      Event.upload f m ∉ (postClip creds remote fs clip tPost).trace) ∧
    (∀ (s a : String) (ts : Nat),
      Event.post s a ts ∉ (postClip creds remote fs clip tPost).trace) := by
  unfold postClip
  by_cases h1 : remote.loginOk
  · refine ⟨fun _ => ?_, fun f m => ?_, fun s a ts => ?_⟩ <;> simp [h1, hm]
  · refine ⟨fun hc => absurd hc h1, fun f m => ?_, fun s a ts => ?_⟩ <;>
      simp [h1, hm]

/-- Witness for C8: an empty media directory makes the example publish
fail with `MediaNotFound` without any upload or post event. -/
theorem media_missing_fail_fast_witness :
    (postClip ("bot.bsky.social", "app-password") allOk [] georgeClip 0).res =
      Except.error PubErr.mediaNotFound ∧
    (∀ (f m : String), Event.upload f m ∉
      (postClip ("bot.bsky.social", "app-password") allOk [] georgeClip 0).trace) ∧
    (∀ (s a : String) (ts : Nat), Event.post s a ts ∉
      (postClip ("bot.bsky.social", "app-password") allOk [] georgeClip 0).trace) := by
  have h := media_missing_fail_fast ("bot.bsky.social", "app-password") allOk []
    georgeClip 0 (by decide)
  exact ⟨h.1 rfl, h.2.1, h.2.2⟩

/-- C10: every media upload of a run declares the fixed MIME type
`video/mp4`, whatever the Item's filename or file content. -/
theorem upload_mime_fixed (env : Option String × Option String)
    (disk : Option Database) (fs : List String) (remote : Remote)
    (clock : Nat → Nat) (f m : String)
    (h : Event.upload f m ∈ (runOnce env disk fs remote clock).trace) :
    m = "video/mp4" := by
  rcases runOnce_cases env disk fs remote clock with
    ⟨-, hr⟩ | ⟨-, -, hr⟩ | ⟨db, -, -, -, hr⟩ |
    ⟨db, clip, e, -, -, -, -, hr⟩ | ⟨db, clip, -, -, -, -, hr⟩
  · rw [hr] at h; simp at h
  · rw [hr] at h; simp at h
  · rw [hr] at h; simp at h
  · rw [hr] at h
    exact postClip_upload_mime (env.1.getD "", env.2.getD "") remote fs clip
      (clock 1) f m h
  · rw [hr] at h
    simp only [List.mem_append, List.mem_singleton] at h
    rcases h with h | h
    · exact postClip_upload_mime (env.1.getD "", env.2.getD "") remote fs clip
        (clock 1) f m h
    · exact Event.noConfusion h

/-- Witness for C10: the upload of the example run carries MIME type
`video/mp4`. -/
theorem upload_mime_fixed_witness :
    Event.upload "banana_stand_money.mp4" "video/mp4" ∈
      (runOnce exampleEnv (some exampleDb) exampleFs allOk (fun n => n)).trace ∧
    "video/mp4" = "video/mp4" :=
  ⟨by decide,
    upload_mime_fixed exampleEnv (some exampleDb) exampleFs allOk (fun n => n)
      "banana_stand_money.mp4" "video/mp4" (by decide)⟩

/-- C3: after a successful run on a Queue (unique identifiers, per the
data-model invariant) holding at least one unposted Item, exactly one
Item — the first unposted one, at index `i` — flips from `posted = false`
to `posted = true` with `post_date` set to a clock reading at or after
the run's start (`clock 0`); every other Item is unchanged in place, every
other field of the flipped Item is unchanged, the queue keeps its length
and order, and the root fields are untouched. -/
theorem successful_run_flips_first_unposted (env : Option String × Option String)
    (db : Database) (fs : List String) (remote : Remote) (clock : Nat → Nat)
    (hmono : Monotone clock)
    (hids : (db.clips.map Clip.id).Nodup)
    (c : Clip) (hsel : getNextClip db = some c)
    (hrun : (runOnce env (some db) fs remote clock).outcome = .ok ()) :
    ∃ i, db.clips[i]? = some c ∧ c.posted = false ∧
      ∃ db', (runOnce env (some db) fs remote clock).disk = some db' ∧
        db'.extra = db.extra ∧
        db'.clips.length = db.clips.length ∧
        db'.clips[i]? =
          some { c with posted := true, post_date := some (clock 2) } ∧
        (∀ (j : Nat), j ≠ i → db'.clips[j]? = db.clips[j]?) ∧
        clock 0 ≤ clock 2 := by
  rcases runOnce_cases env (some db) fs remote clock with
    ⟨-, hr⟩ | ⟨-, hd, -⟩ | ⟨db0, -, hd, hsel0, -⟩ |
    ⟨db0, clip, e, -, hd, -, -, hr⟩ | ⟨db0, clip, -, hd, hsel0, -, hr⟩
  · rw [hr] at hrun; exact absurd hrun (by simp)
  · exact Option.noConfusion hd
  · obtain rfl : db = db0 := Option.some.inj hd
    rw [hsel0] at hsel; exact Option.noConfusion hsel
  · rw [hr] at hrun; exact absurd hrun (by simp)
  · obtain rfl : db = db0 := Option.some.inj hd
    rw [hsel0] at hsel
    obtain rfl : c = clip := (Option.some.inj hsel).symm
    obtain ⟨i, hget, hpost, -⟩ := find_unposted_spec db.clips c hsel0
    have hlt : i < db.clips.length := by
      rcases List.getElem?_eq_some_iff.mp hget with ⟨h, -⟩; exact h
    have hne : ∀ (j : Nat) (d : Clip), j < i → db.clips[j]? = some d →
        d.id ≠ c.id := by
      intro j d hj hjd
      exact nodup_ids_ne db.clips hids j i d c (Nat.ne_of_lt hj) hjd hget
    have hmark : markAsPosted db c.id (clock 2) =
        { db with clips := db.clips.set i { c with posted := true, post_date := some (clock 2) } } := by
      rw [markAsPosted,
        updateFirstMatch_eq_set c.id (clock 2) db.clips i c hget rfl hne]
    refine ⟨i, hget, hpost, markAsPosted db c.id (clock 2), by rw [hr], ?_, ?_,
      ?_, ?_, hmono (Nat.zero_le 2)⟩
    · rw [hmark]
    · rw [hmark]; exact List.length_set db.clips i _
    · rw [hmark]; exact List.getElem?_set_self hlt
    · intro j hj
      rw [hmark]
      exact List.getElem?_set_ne (Ne.symm hj)

/-- Witness for C3 on the spec's example scenario: a successful run on the
two-clip queue flips exactly the second clip (the first unposted one),
stamps it with the later clock reading, and leaves the first clip and the
root fields untouched. -/
theorem successful_run_flips_first_unposted_witness :
    ((exampleDb.clips.map Clip.id).Nodup ∧
      getNextClip exampleDb = some georgeClip ∧
      (runOnce exampleEnv (some exampleDb) exampleFs allOk (fun n => n)).outcome =
        Except.ok ()) ∧
    (∃ i, exampleDb.clips[i]? = some georgeClip ∧ georgeClip.posted = false ∧
      ∃ db', (runOnce exampleEnv (some exampleDb) exampleFs allOk
          (fun n => n)).disk = some db' ∧
        db'.extra = exampleDb.extra ∧
        db'.clips.length = exampleDb.clips.length ∧
        db'.clips[i]? =
          some { georgeClip with posted := true, post_date := some 2 } ∧
        (∀ (j : Nat), j ≠ i → db'.clips[j]? = exampleDb.clips[j]?) ∧
        (0 : Nat) ≤ 2) :=
  ⟨⟨by decide, rfl, rfl⟩,
    successful_run_flips_first_unposted exampleEnv exampleDb exampleFs allOk
      (fun n => n) (fun _ _ h => h) (by decide) georgeClip rfl rfl⟩

/-- C6: the store round-trips the document exactly (`save` after `load`
with no changes reproduces the same document, unknown fields included),
and across any run every unknown field — per Item and at the document
root — and every non-status field of every Item survives into the saved
record unchanged. -/
theorem roundtrip_field_fidelity (env : Option String × Option String)
    (db : Database) (fs : List String) (remote : Remote) (clock : Nat → Nat) :
    loadDatabase (saveDatabase db) = Except.ok db ∧
    ∀ db', (runOnce env (some db) fs remote clock).disk = some db' →
      db'.extra = db.extra ∧
      db'.clips.length = db.clips.length ∧
      ∀ (i : Nat) (c : Clip), db.clips[i]? = some c →
        ∃ c', db'.clips[i]? = some c' ∧
          c'.id = c.id ∧ c'.filename = c.filename ∧ c'.quote = c.quote ∧
          c'.character = c.character ∧ c'.description = c.description ∧
          c'.extra = c.extra := by
  refine ⟨rfl, ?_⟩
  intro db' hdisk
  rcases runOnce_cases env (some db) fs remote clock with
    ⟨-, hr⟩ | ⟨-, hd, -⟩ | ⟨db0, -, -, -, hr⟩ |
    ⟨db0, clip, e, -, -, -, -, hr⟩ | ⟨db0, clip, -, hd, -, -, hr⟩
  · rw [hr] at hdisk
    obtain rfl : db = db' := Option.some.inj hdisk
    exact ⟨rfl, rfl, fun i c hc => ⟨c, hc, rfl, rfl, rfl, rfl, rfl, rfl⟩⟩
  · exact Option.noConfusion hd
  · rw [hr] at hdisk
    obtain rfl : db = db' := Option.some.inj hdisk
    exact ⟨rfl, rfl, fun i c hc => ⟨c, hc, rfl, rfl, rfl, rfl, rfl, rfl⟩⟩
  · rw [hr] at hdisk
    obtain rfl : db = db' := Option.some.inj hdisk
    exact ⟨rfl, rfl, fun i c hc => ⟨c, hc, rfl, rfl, rfl, rfl, rfl, rfl⟩⟩
  · obtain rfl : db = db0 := Option.some.inj hd
    rw [hr] at hdisk
    obtain rfl : markAsPosted db clip.id (clock 2) = db' :=
      Option.some.inj hdisk
    exact ⟨rfl, updateFirstMatch_length clip.id (clock 2) db.clips,
      fun i c hc => updateFirstMatch_pointwise clip.id (clock 2) db.clips i c hc⟩

/-- Witness for C6: after the example run the saved record still carries
the unknown root field and the unknown per-clip field byte-for-byte. -/
theorem roundtrip_field_fidelity_witness :
    (runOnce exampleEnv (some exampleDb) exampleFs allOk (fun n => n)).disk =
      some (markAsPosted exampleDb georgeClip.id 2) ∧
    ((markAsPosted exampleDb georgeClip.id 2).extra = exampleDb.extra ∧
      (markAsPosted exampleDb georgeClip.id 2).clips.length =
        exampleDb.clips.length ∧
      ∀ (i : Nat) (c : Clip), exampleDb.clips[i]? = some c →
        ∃ c', (markAsPosted exampleDb georgeClip.id 2).clips[i]? = some c' ∧
          c'.id = c.id ∧ c'.filename = c.filename ∧ c'.quote = c.quote ∧
          c'.character = c.character ∧ c'.description = c.description ∧
          c'.extra = c.extra) :=
  ⟨rfl,
    (roundtrip_field_fidelity exampleEnv exampleDb exampleFs allOk
      (fun n => n)).2 (markAsPosted exampleDb georgeClip.id 2) rfl⟩

end ArrestedBot
